import Mathlib

/-!
Shallow embedding of the `totp-otp-auth` library core: the RFC 4648 Base32
codec (`src/base32.ts`), the RFC 4226/6238 OTP engine (`src/totp.ts`), and the
public API layer (`src/index.ts`).  JavaScript 32-bit integer operations are
modelled on `Nat` with explicit `% 4294967296`; JavaScript `BigInt` values are
modelled on `Int` (`&0xffn` is `Int.emod · 256`, `>> 8n` is `Int.fdiv · 256`).
-/

set_option maxRecDepth 100000

namespace TotpAuth

/-! ### Base32 codec (src/base32.ts) -/

def BASE32_CHARS : String := "ABCDEFGHIJKLMNOPQRSTUVWXYZ234567"

/-- The set matched by the JavaScript regular expression character class `\s`. -/
def isJsWhitespace (c : Char) : Bool :=
  c.toNat == 0x09 || c.toNat == 0x0A || c.toNat == 0x0B || c.toNat == 0x0C ||
  c.toNat == 0x0D || c.toNat == 0x20 || c.toNat == 0xA0 || c.toNat == 0x1680 ||
  (0x2000 ≤ c.toNat && c.toNat ≤ 0x200A) || c.toNat == 0x2028 ||
  c.toNat == 0x2029 || c.toNat == 0x202F || c.toNat == 0x205F ||
  c.toNat == 0x3000 || c.toNat == 0xFEFF

/-- The inner `while (bits >= 5)` loop of `base32Encode`; the fuel argument is
an upper bound on the iteration count (each pass removes 5 bits), so with
`fuel = bits` the loop always runs to completion.  Returns the emitted 5-bit
groups and the final `bits` counter. -/
def encodeEmitLoop : Nat → Nat → Nat → List Nat × Nat
  | 0, _, bits => ([], bits)
  | fuel + 1, value, bits =>
    if 5 ≤ bits then
      let r := encodeEmitLoop fuel value (bits - 5)
      (((value >>> (bits - 5)) &&& 31) :: r.1, r.2)
    else ([], bits)

def encodeEmit (value bits : Nat) : List Nat × Nat :=
  encodeEmitLoop bits value bits

/-- The byte loop of `base32Encode`, producing the emitted 5-bit groups.
`value` carries the JavaScript 32-bit accumulator `(value << 8) | buffer[i]`,
hence the `% 4294967296`. -/
def encodeCore : List Nat → Nat → Nat → List Nat
  | [], value, bits =>
    if 0 < bits then [((value <<< (5 - bits)) % 4294967296) &&& 31] else []
  | b :: rest, value, bits =>
    let v := ((value <<< 8) ||| b) % 4294967296
    let r := encodeEmit v (bits + 8)
    r.1 ++ encodeCore rest v r.2

def base32Encode (buffer : List Nat) : String :=
  ⟨(encodeCore buffer 0 0).map (fun g => BASE32_CHARS.data.getD g 'A')⟩

/-- The character loop of `base32Decode`: look each character up in the
alphabet (`indexOf`, error when absent), accumulate 5 bits, emit a byte when
8 bits are buffered (`bits += 5; if (bits >= 8)`). -/
def decodeCore : List Char → Nat → Nat → Except String (List Nat)
  | [], _, _ => Except.ok []
  | c :: rest, value, bits =>
    match List.findIdx? (fun x => x == c) BASE32_CHARS.data with
    | none => Except.error ("Invalid Base32 character: " ++ c.toString)
    | some charIndex =>
      let v := ((value <<< 5) ||| charIndex) % 4294967296
      if 8 ≤ bits + 5 then
        match decodeCore rest v (bits + 5 - 8) with
        | Except.ok bs => Except.ok (((v >>> (bits + 5 - 8)) &&& 255) :: bs)
        | Except.error e => Except.error e
      else decodeCore rest v (bits + 5)

/-- `base32Decode`: strip whitespace, uppercase, then run the character loop.
The result list is the bytes actually emitted (the source's
`output.slice(0, index)`). -/
def base32Decode (base32 : String) : Except String (List Nat) :=
  let cleaned := (base32.data.filter (fun c => !isJsWhitespace c)).map Char.toUpper
  decodeCore cleaned 0 0

/-- Length of the whitespace-stripped input text, the `base32.length` the
decoder's output sizing is computed from. -/
def strippedLength (base32 : String) : Nat :=
  (base32.data.filter (fun c => !isJsWhitespace c)).length

instance {ε α : Type} [DecidableEq ε] [DecidableEq α] : DecidableEq (Except ε α) := fun a b =>
  match a, b with
  | Except.ok x, Except.ok y =>
    if h : x = y then isTrue (by rw [h]) else isFalse (by intro hc; cases hc; exact h rfl)
  | Except.error x, Except.error y =>
    if h : x = y then isTrue (by rw [h]) else isFalse (by intro hc; cases hc; exact h rfl)
  | Except.ok _, Except.error _ => isFalse (by intro hc; cases hc)
  | Except.error _, Except.ok _ => isFalse (by intro hc; cases hc)

example : base32Encode [0x31, 0x32] = "GEZA" := by decide
example : base32Decode "GEZA" = Except.ok [0x31, 0x32] := by decide
example : base32Decode "gezdgnbvgy3tqojqgezdgnbvgy3tqojq" =
    Except.ok [0x31, 0x32, 0x33, 0x34, 0x35, 0x36, 0x37, 0x38, 0x39, 0x30,
               0x31, 0x32, 0x33, 0x34, 0x35, 0x36, 0x37, 0x38, 0x39, 0x30] := by decide

/-! ### Hash primitives

Modelled from the spec: the repository calls Node's `crypto.createHmac`, an
external collaborator required as "a primitive `HMAC(algorithm, key_bytes,
message_bytes) → digest_bytes` supporting SHA-1/256/512 ... a trusted external
cryptographic library, never reimplemented" — that primitive is not under
`src/`, so SHA-1, SHA-256, SHA-512 and HMAC are modelled here from their
standard definitions (FIPS 180-4 / RFC 2104), which the spec appeals to. -/

def rotl32 (x n : Nat) : Nat := ((x <<< n) % 2 ^ 32) ||| (x >>> (32 - n))

def rotr32 (x n : Nat) : Nat := (x >>> n) ||| ((x <<< (32 - n)) % 2 ^ 32)

def rotr64 (x n : Nat) : Nat := (x >>> n) ||| ((x <<< (64 - n)) % 2 ^ 64)

/-- `k` bytes of `n`, big-endian (most significant byte first). -/
def beBytes : Nat → Nat → List Nat
  | 0, _ => []
  | k + 1, n => beBytes k (n / 256) ++ [n % 256]

/-- Pack bytes into 32-bit big-endian words. -/
def toWords32 : List Nat → List Nat
  | b0 :: b1 :: b2 :: b3 :: rest =>
    ((b0 <<< 24) ||| (b1 <<< 16) ||| (b2 <<< 8) ||| b3) :: toWords32 rest
  | _ => []

/-- Pack bytes into 64-bit big-endian words. -/
def toWords64 : List Nat → List Nat
  | b0 :: b1 :: b2 :: b3 :: b4 :: b5 :: b6 :: b7 :: rest =>
    ((b0 <<< 56) ||| (b1 <<< 48) ||| (b2 <<< 40) ||| (b3 <<< 32) |||
     (b4 <<< 24) ||| (b5 <<< 16) ||| (b6 <<< 8) ||| b7) :: toWords64 rest
  | _ => []

/-- Merkle–Damgård padding: `0x80`, zeros, then the bit length in a
`lenBytes`-byte big-endian field, to a multiple of `blockSize`. -/
def shaPad (blockSize lenBytes : Nat) (msg : List Nat) : List Nat :=
  msg ++ 0x80 ::
    List.replicate ((2 * blockSize - lenBytes - 1 - msg.length % blockSize) % blockSize) 0 ++
    beBytes lenBytes (8 * msg.length)

/-- Split into `k`-byte blocks; the fuel is an upper bound on the block count
(`k ≥ 1` removes at least one byte per step). -/
def chunksLoop (k : Nat) : Nat → List Nat → List (List Nat)
  | _, [] => []
  | 0, l => [l]
  | fuel + 1, l => l.take k :: chunksLoop k fuel (l.drop k)

def chunks (k : Nat) (l : List Nat) : List (List Nat) := chunksLoop k l.length l

structure Sha1State where
  h0 : Nat
  h1 : Nat
  h2 : Nat
  h3 : Nat
  h4 : Nat

def sha1InitState : Sha1State :=
  ⟨1732584193, 4023233417, 2562383102, 271733878, 3285377520⟩

/-- Message-schedule extension, most recent word at the head. -/
def sha1ExtendRev : Nat → List Nat → List Nat
  | 0, rw => rw
  | n + 1, rw =>
    let x := rotl32 ((rw.getD 2 0) ^^^ (rw.getD 7 0) ^^^ (rw.getD 13 0) ^^^ (rw.getD 15 0)) 1
    sha1ExtendRev n (x :: rw)

def sha1Schedule (block : List Nat) : List Nat :=
  (sha1ExtendRev 64 (toWords32 block).reverse).reverse

def sha1F (t b c d : Nat) : Nat :=
  if t < 20 then (b &&& c) ||| ((b ^^^ 0xFFFFFFFF) &&& d)
  else if t < 40 then b ^^^ c ^^^ d
  else if t < 60 then (b &&& c) ||| (b &&& d) ||| (c &&& d)
  else b ^^^ c ^^^ d

def sha1K (t : Nat) : Nat :=
  if t < 20 then 1518500249
  else if t < 40 then 1859775393
  else if t < 60 then 2400959708
  else 3395469782

def sha1Rounds : List Nat → Nat → Nat → Nat → Nat → Nat → Nat → Nat × Nat × Nat × Nat × Nat
  | [], _, a, b, c, d, e => (a, b, c, d, e)
  | w :: ws, t, a, b, c, d, e =>
    let temp := (rotl32 a 5 + sha1F t b c d + e + sha1K t + w) % 2 ^ 32
    sha1Rounds ws (t + 1) temp a (rotl32 b 30) c d

def sha1Compress (st : Sha1State) (block : List Nat) : Sha1State :=
  let r := sha1Rounds (sha1Schedule block) 0 st.h0 st.h1 st.h2 st.h3 st.h4
  ⟨(st.h0 + r.1) % 2 ^ 32, (st.h1 + r.2.1) % 2 ^ 32, (st.h2 + r.2.2.1) % 2 ^ 32,
   (st.h3 + r.2.2.2.1) % 2 ^ 32, (st.h4 + r.2.2.2.2) % 2 ^ 32⟩

def sha1 (msg : List Nat) : List Nat :=
  let st := (chunks 64 (shaPad 64 8 msg)).foldl sha1Compress sha1InitState
  beBytes 4 st.h0 ++ beBytes 4 st.h1 ++ beBytes 4 st.h2 ++ beBytes 4 st.h3 ++ beBytes 4 st.h4

/-- Common 8-word state for SHA-256 and SHA-512. -/
structure Sha8State where
  h0 : Nat
  h1 : Nat
  h2 : Nat
  h3 : Nat
  h4 : Nat
  h5 : Nat
  h6 : Nat
  h7 : Nat

def sha256K : List Nat :=
  [1116352408, 1899447441, 3049323471, 3921009573, 961987163, 1508970993, 2453635748, 2870763221,
   3624381080, 310598401, 607225278, 1426881987, 1925078388, 2162078206, 2614888103, 3248222580,
   3835390401, 4022224774, 264347078, 604807628, 770255983, 1249150122, 1555081692, 1996064986,
   2554220882, 2821834349, 2952996808, 3210313671, 3336571891, 3584528711, 113926993, 338241895,
   666307205, 773529912, 1294757372, 1396182291, 1695183700, 1986661051, 2177026350, 2456956037,
   2730485921, 2820302411, 3259730800, 3345764771, 3516065817, 3600352804, 4094571909, 275423344,
   430227734, 506948616, 659060556, 883997877, 958139571, 1322822218, 1537002063, 1747873779,
   1955562222, 2024104815, 2227730452, 2361852424, 2428436474, 2756734187, 3204031479, 3329325298]

def sha256Init : Sha8State :=
  ⟨1779033703, 3144134277, 1013904242, 2773480762, 1359893119, 2600822924, 528734635, 1541459225⟩

def sha256ExtendRev : Nat → List Nat → List Nat
  | 0, rw => rw
  | n + 1, rw =>
    let s0 := rotr32 (rw.getD 14 0) 7 ^^^ rotr32 (rw.getD 14 0) 18 ^^^ (rw.getD 14 0 >>> 3)
    let s1 := rotr32 (rw.getD 1 0) 17 ^^^ rotr32 (rw.getD 1 0) 19 ^^^ (rw.getD 1 0 >>> 10)
    let x := (rw.getD 15 0 + s0 + rw.getD 6 0 + s1) % 2 ^ 32
    sha256ExtendRev n (x :: rw)

def sha256Schedule (block : List Nat) : List Nat :=
  (sha256ExtendRev 48 (toWords32 block).reverse).reverse

def sha256Round (st : Sha8State) (k w : Nat) : Sha8State :=
  let bigS1 := rotr32 st.h4 6 ^^^ rotr32 st.h4 11 ^^^ rotr32 st.h4 25
  let ch := (st.h4 &&& st.h5) ^^^ ((st.h4 ^^^ 0xFFFFFFFF) &&& st.h6)
  let t1 := (st.h7 + bigS1 + ch + k + w) % 2 ^ 32
  let bigS0 := rotr32 st.h0 2 ^^^ rotr32 st.h0 13 ^^^ rotr32 st.h0 22
  let maj := (st.h0 &&& st.h1) ^^^ (st.h0 &&& st.h2) ^^^ (st.h1 &&& st.h2)
  let t2 := (bigS0 + maj) % 2 ^ 32
  ⟨(t1 + t2) % 2 ^ 32, st.h0, st.h1, st.h2, (st.h3 + t1) % 2 ^ 32, st.h4, st.h5, st.h6⟩

def sha256Compress (st : Sha8State) (block : List Nat) : Sha8State :=
  let r := (List.zip sha256K (sha256Schedule block)).foldl (fun s p => sha256Round s p.1 p.2) st
  ⟨(st.h0 + r.h0) % 2 ^ 32, (st.h1 + r.h1) % 2 ^ 32, (st.h2 + r.h2) % 2 ^ 32,
   (st.h3 + r.h3) % 2 ^ 32, (st.h4 + r.h4) % 2 ^ 32, (st.h5 + r.h5) % 2 ^ 32,
   (st.h6 + r.h6) % 2 ^ 32, (st.h7 + r.h7) % 2 ^ 32⟩

def sha256 (msg : List Nat) : List Nat :=
  let st := (chunks 64 (shaPad 64 8 msg)).foldl sha256Compress sha256Init
  beBytes 4 st.h0 ++ beBytes 4 st.h1 ++ beBytes 4 st.h2 ++ beBytes 4 st.h3 ++
  beBytes 4 st.h4 ++ beBytes 4 st.h5 ++ beBytes 4 st.h6 ++ beBytes 4 st.h7

def sha512K : List Nat :=
  [4794697086780616226, 8158064640168781261, 13096744586834688815, 16840607885511220156,
   4131703408338449720, 6480981068601479193, 10538285296894168987, 12329834152419229976,
   15566598209576043074, 1334009975649890238, 2608012711638119052, 6128411473006802146,
   8268148722764581231, 9286055187155687089, 11230858885718282805, 13951009754708518548,
   16472876342353939154, 17275323862435702243, 1135362057144423861, 2597628984639134821,
   3308224258029322869, 5365058923640841347, 6679025012923562964, 8573033837759648693,
   10970295158949994411, 12119686244451234320, 12683024718118986047, 13788192230050041572,
   14330467153632333762, 15395433587784984357, 489312712824947311, 1452737877330783856,
   2861767655752347644, 3322285676063803686, 5560940570517711597, 5996557281743188959,
   7280758554555802590, 8532644243296465576, 9350256976987008742, 10552545826968843579,
   11727347734174303076, 12113106623233404929, 14000437183269869457, 14369950271660146224,
   15101387698204529176, 15463397548674623760, 17586052441742319658, 1182934255886127544,
   1847814050463011016, 2177327727835720531, 2830643537854262169, 3796741975233480872,
   4115178125766777443, 5681478168544905931, 6601373596472566643, 7507060721942968483,
   8399075790359081724, 8693463985226723168, 9568029438360202098, 10144078919501101548,
   10430055236837252648, 11840083180663258601, 13761210420658862357, 14299343276471374635,
   14566680578165727644, 15097957966210449927, 16922976911328602910, 17689382322260857208,
   500013540394364858, 748580250866718886, 1242879168328830382, 1977374033974150939,
   2944078676154940804, 3659926193048069267, 4368137639120453308, 4836135668995329356,
   5532061633213252278, 6448918945643986474, 6902733635092675308, 7801388544844847127]

def sha512Init : Sha8State :=
  ⟨7640891576956012808, 13503953896175478587, 4354685564936845355, 11912009170470909681,
   5840696475078001361, 11170449401992604703, 2270897969802886507, 6620516959819538809⟩

def sha512ExtendRev : Nat → List Nat → List Nat
  | 0, rw => rw
  | n + 1, rw =>
    let s0 := rotr64 (rw.getD 14 0) 1 ^^^ rotr64 (rw.getD 14 0) 8 ^^^ (rw.getD 14 0 >>> 7)
    let s1 := rotr64 (rw.getD 1 0) 19 ^^^ rotr64 (rw.getD 1 0) 61 ^^^ (rw.getD 1 0 >>> 6)
    let x := (rw.getD 15 0 + s0 + rw.getD 6 0 + s1) % 2 ^ 64
    sha512ExtendRev n (x :: rw)

def sha512Schedule (block : List Nat) : List Nat :=
  (sha512ExtendRev 64 (toWords64 block).reverse).reverse

def sha512Round (st : Sha8State) (k w : Nat) : Sha8State :=
  let bigS1 := rotr64 st.h4 14 ^^^ rotr64 st.h4 18 ^^^ rotr64 st.h4 41
  let ch := (st.h4 &&& st.h5) ^^^ ((st.h4 ^^^ 0xFFFFFFFFFFFFFFFF) &&& st.h6)
  let t1 := (st.h7 + bigS1 + ch + k + w) % 2 ^ 64
  let bigS0 := rotr64 st.h0 28 ^^^ rotr64 st.h0 34 ^^^ rotr64 st.h0 39
  let maj := (st.h0 &&& st.h1) ^^^ (st.h0 &&& st.h2) ^^^ (st.h1 &&& st.h2)
  let t2 := (bigS0 + maj) % 2 ^ 64
  ⟨(t1 + t2) % 2 ^ 64, st.h0, st.h1, st.h2, (st.h3 + t1) % 2 ^ 64, st.h4, st.h5, st.h6⟩

def sha512Compress (st : Sha8State) (block : List Nat) : Sha8State :=
  let r := (List.zip sha512K (sha512Schedule block)).foldl (fun s p => sha512Round s p.1 p.2) st
  ⟨(st.h0 + r.h0) % 2 ^ 64, (st.h1 + r.h1) % 2 ^ 64, (st.h2 + r.h2) % 2 ^ 64,
   (st.h3 + r.h3) % 2 ^ 64, (st.h4 + r.h4) % 2 ^ 64, (st.h5 + r.h5) % 2 ^ 64,
   (st.h6 + r.h6) % 2 ^ 64, (st.h7 + r.h7) % 2 ^ 64⟩

def sha512 (msg : List Nat) : List Nat :=
  let st := (chunks 128 (shaPad 128 16 msg)).foldl sha512Compress sha512Init
  beBytes 8 st.h0 ++ beBytes 8 st.h1 ++ beBytes 8 st.h2 ++ beBytes 8 st.h3 ++
  beBytes 8 st.h4 ++ beBytes 8 st.h5 ++ beBytes 8 st.h6 ++ beBytes 8 st.h7

/-- The closed set of hash algorithms reachable through `algoMap`
(`'SHA-1' | 'SHA-256' | 'SHA-512'` in `src/types.ts`). -/
inductive HashAlg where
  | sha1
  | sha256
  | sha512
deriving DecidableEq

def hashBlockSize : HashAlg → Nat
  | HashAlg.sha1 => 64
  | HashAlg.sha256 => 64
  | HashAlg.sha512 => 128

def hashDigest : HashAlg → List Nat → List Nat
  | HashAlg.sha1 => sha1
  | HashAlg.sha256 => sha256
  | HashAlg.sha512 => sha512

/-- Modelled from the spec: RFC 2104 HMAC over the selected hash, the external
`createHmac` collaborator. -/
def hmac (alg : HashAlg) (key message : List Nat) : List Nat :=
  let bs := hashBlockSize alg
  let k0 := if bs < key.length then hashDigest alg key else key
  let kp := k0 ++ List.replicate (bs - k0.length) 0
  hashDigest alg
    ((kp.map (fun b => b ^^^ 0x5c)) ++ hashDigest alg ((kp.map (fun b => b ^^^ 0x36)) ++ message))

example : sha1 [] =
    [0xda, 0x39, 0xa3, 0xee, 0x5e, 0x6b, 0x4b, 0x0d, 0x32, 0x55,
     0xbf, 0xef, 0x95, 0x60, 0x18, 0x90, 0xaf, 0xd8, 0x07, 0x09] := by decide

example : sha256 [] =
    [0xe3, 0xb0, 0xc4, 0x42, 0x98, 0xfc, 0x1c, 0x14, 0x9a, 0xfb, 0xf4, 0xc8,
     0x99, 0x6f, 0xb9, 0x24, 0x27, 0xae, 0x41, 0xe4, 0x64, 0x9b, 0x93, 0x4c,
     0xa4, 0x95, 0x99, 0x1b, 0x78, 0x52, 0xb8, 0x55] := by decide

example : sha512 [] =
    [0xcf, 0x83, 0xe1, 0x35, 0x7e, 0xef, 0xb8, 0xbd, 0xf1, 0x54, 0x28, 0x50,
     0xd6, 0x6d, 0x80, 0x07, 0xd6, 0x20, 0xe4, 0x05, 0x0b, 0x57, 0x15, 0xdc,
     0x83, 0xf4, 0xa9, 0x21, 0xd3, 0x6c, 0xe9, 0xce, 0x47, 0xd0, 0xd1, 0x3c,
     0x5d, 0x85, 0xf2, 0xb0, 0xff, 0x83, 0x18, 0xd2, 0x87, 0x7e, 0xec, 0x2f,
     0x63, 0xb9, 0x31, 0xbd, 0x47, 0x41, 0x7a, 0x81, 0xa5, 0x38, 0x32, 0x7a,
     0xf9, 0x27, 0xda, 0x3e] := by decide

/-! ### OTP engine (src/totp.ts) -/

/-- The `algoMap` record of `generateHOTP`: the runtime lookup from the
algorithm selector string to the hash used by `createHmac`; any other selector
yields `undefined` and `createHmac` throws before computing anything. -/
def algoMap (algorithm : String) : Option HashAlg :=
  if algorithm = "SHA-1" then some HashAlg.sha1
  else if algorithm = "SHA-256" then some HashAlg.sha256
  else if algorithm = "SHA-512" then some HashAlg.sha512
  else none

/-- The counter-buffer loop of `generateHOTP` in computation order: the first
element is `counter & 0xffn` written to index 7, and so on (`&` and `>> 8n` on
a JavaScript `BigInt` are two's-complement, i.e. `Int.emod`/`Int.fdiv`). -/
def counterBytesAux : Nat → Int → List Nat
  | 0, _ => []
  | k + 1, v => (v.emod 256).toNat :: counterBytesAux k (v.fdiv 256)

/-- The 8-byte counter buffer of `generateHOTP` (index 0 first, so the
computation order above reversed). -/
def counterBytes (counter : Int) : List Nat :=
  (counterBytesAux 8 counter).reverse

/-- Dynamic truncation of `generateHOTP`: offset from the digest's last byte,
then four bytes from `offset` packed big-endian with the top bit masked. -/
def hotpCode (digest : List Nat) : Nat :=
  let offset := digest.getD (digest.length - 1) 0 &&& 0xf
  ((digest.getD offset 0 &&& 0x7f) <<< 24) |||
  ((digest.getD (offset + 1) 0 &&& 0xff) <<< 16) |||
  ((digest.getD (offset + 2) 0 &&& 0xff) <<< 8) |||
  (digest.getD (offset + 3) 0 &&& 0xff)

/-- JavaScript `String.prototype.padStart` with a single-character pad. -/
def padStart (s : String) (n : Nat) (c : Char) : String :=
  ⟨List.replicate (n - s.length) c ++ s.data⟩

def generateHOTP (secret : List Nat) (counter : Int) (digits : Nat) (algorithm : String) :
    Except String String :=
  match algoMap algorithm with
  | none => Except.error "Unsupported algorithm"
  | some alg =>
    let counterBuffer := counterBytes counter
    let digest := hmac alg secret counterBuffer
    let code := hotpCode digest
    let otp := Nat.repr (code % 10 ^ digits)
    Except.ok (padStart otp digits '0')

/-- `generateTOTP`: decode the Base32 secret (propagating decode errors),
derive the counter by floor division of the timestamp, delegate to HOTP. -/
def generateTOTP (secret : String) (timestamp step : Int) (digits : Nat) (algorithm : String) :
    Except String String :=
  match base32Decode secret with
  | Except.error e => Except.error e
  | Except.ok secretBuffer =>
    let counter := timestamp.fdiv step
    generateHOTP secretBuffer counter digits algorithm

/-- `constantTimeCompare`: length check first, then OR-accumulated XOR of all
corresponding character codes with no early exit. -/
def constantTimeCompare (a b : String) : Bool :=
  if a.length ≠ b.length then false
  else
    ((List.zip a.data b.data).foldl (fun result p => result ||| (p.1.toNat ^^^ p.2.toNat)) 0) == 0

/-- The offsets `-window, ..., +window` iterated by `verifyTOTP`, in order. -/
def windowOffsets (window : Nat) : List Int :=
  (List.range (2 * window + 1)).map (fun j : Nat => (j : Int) - (window : Int))

/-- The loop body of `verifyTOTP`: regenerate at `timestamp + i * step` and
compare; true on first match, false when the offsets are exhausted. -/
def verifyLoop (secret token : String) (timestamp step : Int) (digits : Nat)
    (algorithm : String) : List Int → Except String Bool
  | [] => Except.ok false
  | i :: rest =>
    match generateTOTP secret (timestamp + i * step) step digits algorithm with
    | Except.error e => Except.error e
    | Except.ok expectedToken =>
      if constantTimeCompare token expectedToken then Except.ok true
      else verifyLoop secret token timestamp step digits algorithm rest

def verifyTOTP (secret token : String) (timestamp : Int) (window : Nat) (step : Int)
    (digits : Nat) (algorithm : String) : Except String Bool :=
  verifyLoop secret token timestamp step digits algorithm (windowOffsets window)

/-! ### Public API layer (src/index.ts) -/

/-- `TokenOptions` from `src/types.ts`; absent optional fields are `none`. -/
structure TokenOptions where
  secret : String
  step : Option Int
  digits : Option Nat
  algorithm : Option String
  timestamp : Option Int

/-- `VerifyOptions` from `src/types.ts`; absent optional fields are `none`. -/
structure VerifyOptions where
  secret : String
  token : String
  window : Option Nat
  step : Option Int
  digits : Option Nat
  algorithm : Option String
  timestamp : Option Int

/-- JavaScript `options.field || dflt` on a numeric field: `undefined` and `0`
are falsy, every other integer is truthy. -/
def orDefaultInt (v : Option Int) (dflt : Int) : Int :=
  match v with
  | some x => if x = 0 then dflt else x
  | none => dflt

def orDefaultNat (v : Option Nat) (dflt : Nat) : Nat :=
  match v with
  | some x => if x = 0 then dflt else x
  | none => dflt

/-- JavaScript `options.algorithm || 'SHA-1'`: the empty string is falsy. -/
def orDefaultStr (v : Option String) (dflt : String) : String :=
  match v with
  | some x => if x = "" then dflt else x
  | none => dflt

/-- `options.window !== undefined ? options.window : 1`: unlike the `||`
defaults, an explicit `0` is kept. -/
def resolveWindow (v : Option Nat) : Nat :=
  match v with
  | some w => w
  | none => 1

/-- Characters removed from the candidate token by
`tokenToVerify.replace(/[\s-]/g, '')`. -/
def isStripChar (c : Char) : Bool := isJsWhitespace c || c == '-'

def stripToken (t : String) : String :=
  ⟨t.data.filter (fun c => !isStripChar c)⟩

/-- `generateToken` (options-object form), with the wall clock passed
explicitly: `now` models `Math.floor(Date.now() / 1000)`. -/
def generateToken (options : TokenOptions) (now : Int) : Except String String :=
  let step := orDefaultInt options.step 30
  let digits := orDefaultNat options.digits 6
  let algorithm := orDefaultStr options.algorithm "SHA-1"
  let timestamp := orDefaultInt options.timestamp now
  if options.secret = "" then Except.error "Secret is required"
  else generateTOTP options.secret timestamp step digits algorithm

/-- `verifyToken` (options-object form), with the wall clock passed
explicitly: validate presence, strip whitespace and hyphens from the
candidate, then delegate to `verifyTOTP`. -/
def verifyToken (options : VerifyOptions) (now : Int) : Except String Bool :=
  let window := resolveWindow options.window
  let step := orDefaultInt options.step 30
  let digits := orDefaultNat options.digits 6
  let algorithm := orDefaultStr options.algorithm "SHA-1"
  let timestamp := orDefaultInt options.timestamp now
  if options.secret = "" ∨ options.token = "" then
    Except.error "Secret and token are required"
  else
    verifyTOTP options.secret (stripToken options.token) timestamp window step digits algorithm

/-! ### C1: RFC 6238 test vectors -/

/-- C1: with the RFC 6238 test secret (Base32
`GEZDGNBVGY3TQOJQGEZDGNBVGY3TQOJQ`), step 30, 6 digits and SHA-1,
`generateTOTP` returns `"287082"` at timestamp 59 and `"081804"` at
timestamp 1111111109. -/
theorem generateTOTP_rfc6238_vectors :
    generateTOTP "GEZDGNBVGY3TQOJQGEZDGNBVGY3TQOJQ" 59 30 6 "SHA-1" = Except.ok "287082" ∧
    generateTOTP "GEZDGNBVGY3TQOJQGEZDGNBVGY3TQOJQ" 1111111109 30 6 "SHA-1" =
      Except.ok "081804" := by
  constructor
  · decide
  · decide

/-! ### Arithmetic and bitwise helper lemmas -/

lemma and31_eq_mod (x : Nat) : x &&& 31 = x % 32 := by
  have h := Nat.and_pow_two_sub_one_eq_mod x 5
  norm_num at h
  exact h

lemma and255_eq_mod (x : Nat) : x &&& 255 = x % 256 := by
  have h := Nat.and_pow_two_sub_one_eq_mod x 8
  norm_num at h
  exact h

lemma and15_eq_mod (x : Nat) : x &&& 15 = x % 16 := by
  have h := Nat.and_pow_two_sub_one_eq_mod x 4
  norm_num at h
  exact h

lemma and127_eq_mod (x : Nat) : x &&& 127 = x % 128 := by
  have h := Nat.and_pow_two_sub_one_eq_mod x 7
  norm_num at h
  exact h

lemma shl_or_small (a b k : Nat) (h : b < 2 ^ k) : (a <<< k) ||| b = a * 2 ^ k + b := by
  rw [Nat.shiftLeft_eq, Nat.mul_comm, ← Nat.mul_add_lt_is_or h, Nat.mul_comm]

lemma or_eq_zero_iff {x y : Nat} : x ||| y = 0 ↔ x = 0 ∧ y = 0 := by
  constructor
  · intro h
    constructor
    · apply Nat.eq_of_testBit_eq
      intro i
      have hb := congrArg (fun v => Nat.testBit v i) h
      simp only [Nat.testBit_or, Nat.zero_testBit, Bool.or_eq_false_iff] at hb
      simp [hb.1]
    · apply Nat.eq_of_testBit_eq
      intro i
      have hb := congrArg (fun v => Nat.testBit v i) h
      simp only [Nat.testBit_or, Nat.zero_testBit, Bool.or_eq_false_iff] at hb
      simp [hb.2]
  · rintro ⟨rfl, rfl⟩
    rfl

lemma char_toNat_inj {a b : Char} (h : a.toNat = b.toNat) : a = b := by
  cases a with | mk av ah =>
  cases b with | mk bv bh =>
  simp only [Char.toNat] at h
  congr 1
  exact UInt32.toNat.inj h

/-! ### C8: constantTimeCompare decides string equality -/

lemma ctcFold_eq_zero (ps : List (Char × Char)) :
    ∀ acc : Nat,
      (ps.foldl (fun result p => result ||| (p.1.toNat ^^^ p.2.toNat)) acc = 0 ↔
        acc = 0 ∧ ∀ p ∈ ps, p.1 = p.2) := by
  induction ps with
  | nil => intro acc; simp
  | cons hd tl ih =>
    intro acc
    simp only [List.foldl_cons, ih, or_eq_zero_iff, List.mem_cons]
    constructor
    · rintro ⟨⟨h1, h2⟩, h3⟩
      refine ⟨h1, fun p hp => ?_⟩
      rcases hp with rfl | hp
      · exact char_toNat_inj (Nat.xor_eq_zero.mp h2)
      · exact h3 p hp
    · rintro ⟨h1, h2⟩
      refine ⟨⟨h1, Nat.xor_eq_zero.mpr (congrArg Char.toNat (h2 hd (Or.inl rfl)))⟩,
        fun p hp => h2 p (Or.inr hp)⟩

lemma zip_pointwise_eq : ∀ (xs ys : List Char), xs.length = ys.length →
    ((∀ p ∈ List.zip xs ys, p.1 = p.2) ↔ xs = ys) := by
  intro xs
  induction xs with
  | nil =>
    intro ys hlen
    cases ys with
    | nil => simp
    | cons y ys => simp at hlen
  | cons x xs ih =>
    intro ys hlen
    cases ys with
    | nil => simp at hlen
    | cons y ys =>
      simp only [List.zip_cons_cons, List.mem_cons, List.cons.injEq]
      constructor
      · intro h
        refine ⟨h (x, y) (Or.inl rfl), ?_⟩
        exact (ih ys (by simpa using hlen)).mp (fun p hp => h p (Or.inr hp))
      · rintro ⟨rfl, rfl⟩
        intro p hp
        rcases hp with rfl | hp
        · rfl
        · exact ((ih xs rfl).mpr rfl) p hp

lemma ctc_eq_iff (a b : String) : constantTimeCompare a b = true ↔ a = b := by
  unfold constantTimeCompare
  by_cases hlen : a.length = b.length
  · have hl : a.data.length = b.data.length := hlen
    simp only [hlen, ne_eq, not_true_eq_false, if_false, beq_iff_eq, ite_false]
    rw [ctcFold_eq_zero]
    constructor
    · rintro ⟨-, h⟩
      exact String.ext ((zip_pointwise_eq a.data b.data hl).mp h)
    · rintro rfl
      exact ⟨rfl, (zip_pointwise_eq a.data a.data rfl).mpr rfl⟩
  · simp only [hlen, ne_eq, not_false_eq_true, if_true]
    constructor
    · intro h; cases h
    · rintro rfl; exact absurd rfl hlen

/-- C8: `constantTimeCompare a b` is true exactly when `a = b` — unequal
lengths return false, and for equal lengths the OR-accumulated XOR of the
character codes is zero exactly on equal strings. -/
theorem constantTimeCompare_iff_eq (a b : String) :
    constantTimeCompare a b = true ↔ a = b :=
  ctc_eq_iff a b

/-! ### C6: counter buffer is the 8-byte big-endian encoding mod 2^64 -/

lemma counterBytesAux_ofNat (k : Nat) : ∀ m : Nat,
    counterBytesAux k (↑m : Int) = (beBytes k m).reverse := by
  induction k with
  | zero => intro m; simp [counterBytesAux, beBytes]
  | succ k ih =>
    intro m
    have hfd : (↑m : Int).fdiv 256 = ↑(m / 256) := by
      rw [Int.fdiv_eq_tdiv (by positivity) (by norm_num)]
      exact (Int.ofNat_tdiv m 256).symm
    have hem : ((↑m : Int).emod 256).toNat = m % 256 := by
      show ((↑m : Int) % 256).toNat = m % 256
      omega
    simp only [counterBytesAux]
    rw [hfd, hem, ih]
    simp [beBytes]

lemma beBytes_length (k : Nat) : ∀ n : Nat, (beBytes k n).length = k := by
  induction k with
  | zero => intro n; rfl
  | succ k ih => intro n; simp [beBytes, ih]

lemma beBytes_bytes_lt (k : Nat) : ∀ n : Nat, ∀ x ∈ beBytes k n, x < 256 := by
  induction k with
  | zero => intro n x hx; simp [beBytes] at hx
  | succ k ih =>
    intro n x hx
    simp only [beBytes, List.mem_append, List.mem_singleton] at hx
    rcases hx with hx | rfl
    · exact ih _ x hx
    · exact Nat.mod_lt _ (by norm_num)

lemma beBytes_congr_mod (k : Nat) : ∀ m n : Nat,
    m % 2 ^ (8 * k) = n % 2 ^ (8 * k) → beBytes k m = beBytes k n := by
  induction k with
  | zero => intro m n _; rfl
  | succ k ih =>
    intro m n h
    have hpow : 2 ^ (8 * (k + 1)) = 256 * 2 ^ (8 * k) := by ring
    rw [hpow] at h
    have h1 : m % 256 = n % 256 := by
      have hm := congrArg (fun v => v % 256) h
      simpa [Nat.mod_mul_left_mod, Nat.mod_mod_of_dvd _ (Dvd.intro _ rfl)] using hm
    have h2 : m / 256 % 2 ^ (8 * k) = n / 256 % 2 ^ (8 * k) := by
      have hm := congrArg (fun v => v / 256) h
      simpa [Nat.mod_mul_right_div_self] using hm
    simp [beBytes, ih _ _ h2, h1]

/-- C6: for a non-negative counter, the HMAC message built by `generateHOTP`
is exactly the 8-byte big-endian encoding of `counter mod 2^64`. -/
theorem counterBytes_bigEndian (c : Int) (hc : 0 ≤ c) :
    counterBytes c = beBytes 8 ((c % (2 ^ 64 : Int)).toNat) ∧
      (counterBytes c).length = 8 := by
  obtain ⟨m, rfl⟩ := Int.eq_ofNat_of_zero_le hc
  have hmod : (((↑m : Int) % (2 ^ 64 : Int)).toNat) = m % 2 ^ 64 := by omega
  constructor
  · rw [counterBytes, counterBytesAux_ofNat, List.reverse_reverse, hmod]
    apply beBytes_congr_mod
    norm_num
  · rw [counterBytes, List.length_reverse, counterBytesAux_ofNat, List.length_reverse,
      beBytes_length]

theorem counterBytes_bigEndian_witness :
    counterBytes 1111111109 = beBytes 8 (((1111111109 : Int) % (2 ^ 64 : Int)).toNat) ∧
      (counterBytes 1111111109).length = 8 :=
  counterBytes_bigEndian 1111111109 (by norm_num)

/-! ### C5: dynamic truncation stays in bounds -/

def hashDigestLength : HashAlg → Nat
  | HashAlg.sha1 => 20
  | HashAlg.sha256 => 32
  | HashAlg.sha512 => 64

lemma sha1_length (msg : List Nat) : (sha1 msg).length = 20 := by
  simp [sha1, beBytes_length]

lemma sha256_length (msg : List Nat) : (sha256 msg).length = 32 := by
  simp [sha256, beBytes_length]

lemma sha512_length (msg : List Nat) : (sha512 msg).length = 64 := by
  simp [sha512, beBytes_length]

lemma hashDigest_length (alg : HashAlg) (msg : List Nat) :
    (hashDigest alg msg).length = hashDigestLength alg := by
  cases alg <;>
    simp [hashDigest, hashDigestLength, sha1_length, sha256_length, sha512_length]

lemma hmac_length (alg : HashAlg) (key msg : List Nat) :
    (hmac alg key msg).length = hashDigestLength alg := by
  unfold hmac
  exact hashDigest_length alg _

lemma hotpCode_lt (digest : List Nat) : hotpCode digest < 2 ^ 31 := by
  have h0 : ∀ x : Nat, (x &&& 0x7f) <<< 24 < 2 ^ 31 := by
    intro x
    rw [Nat.shiftLeft_eq, and127_eq_mod]
    have hx : x % 128 ≤ 127 := by omega
    calc x % 128 * 2 ^ 24 ≤ 127 * 2 ^ 24 := Nat.mul_le_mul_right _ hx
    _ < 2 ^ 31 := by norm_num
  have hb : ∀ x s : Nat, s ≤ 23 → (x &&& 0xff) <<< s < 2 ^ 31 := by
    intro x s hs
    rw [Nat.shiftLeft_eq, and255_eq_mod]
    have hx : x % 256 ≤ 255 := by omega
    calc x % 256 * 2 ^ s ≤ 255 * 2 ^ 23 :=
          Nat.mul_le_mul hx (Nat.pow_le_pow_right (by norm_num) hs)
    _ < 2 ^ 31 := by norm_num
  have hlast : ∀ x : Nat, (x &&& 0xff) < 2 ^ 31 := by
    intro x
    rw [and255_eq_mod]
    calc x % 256 < 256 := Nat.mod_lt _ (by norm_num)
    _ ≤ 2 ^ 31 := by norm_num
  unfold hotpCode
  exact Nat.or_lt_two_pow
    (Nat.or_lt_two_pow (Nat.or_lt_two_pow (h0 _) (hb _ 16 (by norm_num)))
      (hb _ 8 (by norm_num)))
    (hlast _)

/-- C5: for every digest produced by a supported algorithm, the truncation
offset satisfies `offset + 3 < digest length` (the digest is 20, 32 or 64
bytes long and the offset is at most 15), and the truncated code is below
`2^31`. -/
theorem hotp_truncation_safe (alg : HashAlg) (key msg : List Nat) :
    ((hmac alg key msg).length = 20 ∨ (hmac alg key msg).length = 32 ∨
      (hmac alg key msg).length = 64) ∧
    ((hmac alg key msg).getD ((hmac alg key msg).length - 1) 0 &&& 0xf) + 3 <
      (hmac alg key msg).length ∧
    hotpCode (hmac alg key msg) < 2 ^ 31 := by
  have hlen := hmac_length alg key msg
  have hoff : ((hmac alg key msg).getD ((hmac alg key msg).length - 1) 0 &&& 0xf) < 16 := by
    rw [and15_eq_mod]
    exact Nat.mod_lt _ (by norm_num)
  refine ⟨?_, ?_, hotpCode_lt _⟩
  · cases alg <;> simp [hashDigestLength] at hlen <;> omega
  · cases alg <;> simp [hashDigestLength] at hlen <;> omega

/-! ### C7: unsupported algorithm selectors are rejected -/

/-- C7: any algorithm selector outside SHA-1/SHA-256/SHA-512 makes
`generateHOTP` fail with a configuration error before any HMAC is computed
(the `algoMap` lookup yields nothing and `createHmac` throws), and never
falls back to a supported algorithm. -/
theorem generateHOTP_unsupported (secret : List Nat) (counter : Int) (digits : Nat)
    (algorithm : String)
    (h : ¬(algorithm = "SHA-1" ∨ algorithm = "SHA-256" ∨ algorithm = "SHA-512")) :
    generateHOTP secret counter digits algorithm = Except.error "Unsupported algorithm" := by
  push_neg at h
  unfold generateHOTP algoMap
  rw [if_neg h.1, if_neg h.2.1, if_neg h.2.2]

theorem generateHOTP_unsupported_witness :
    generateHOTP [] 0 6 "MD5" = Except.error "Unsupported algorithm" :=
  generateHOTP_unsupported [] 0 6 "MD5" (by decide)

/-! ### C3: generateHOTP digit invariant -/

lemma digitChar_isDigit (n : Nat) (h : n < 10) : (Nat.digitChar n).isDigit = true := by
  interval_cases n <;> decide

lemma toDigitsCore_digits : ∀ (fuel n : Nat) (acc : List Char),
    (∀ ch ∈ acc, ch.isDigit = true) →
    ∀ ch ∈ Nat.toDigitsCore 10 fuel n acc, ch.isDigit = true := by
  intro fuel
  induction fuel with
  | zero => intro n acc hacc; simpa [Nat.toDigitsCore] using hacc
  | succ fuel ih =>
    intro n acc hacc
    simp only [Nat.toDigitsCore]
    split
    · intro ch hch
      rcases List.mem_cons.mp hch with rfl | hch
      · exact digitChar_isDigit _ (Nat.mod_lt _ (by norm_num))
      · exact hacc ch hch
    · apply ih
      intro ch hch
      rcases List.mem_cons.mp hch with rfl | hch
      · exact digitChar_isDigit _ (Nat.mod_lt _ (by norm_num))
      · exact hacc ch hch

lemma repr_chars_digits (n : Nat) : ∀ ch ∈ (Nat.repr n).data, ch.isDigit = true := by
  intro ch hch
  exact toDigitsCore_digits (n + 1) n [] (by simp) ch hch

lemma padStart_length (s : String) (n : Nat) (c : Char) :
    (padStart s n c).length = max n s.length := by
  have hs : s.length = s.data.length := rfl
  show (List.replicate (n - s.length) c ++ s.data).length = max n s.length
  rw [List.length_append, List.length_replicate]
  omega

lemma padStart_chars (s : String) (n : Nat) (c : Char) :
    ∀ ch ∈ (padStart s n c).data, ch = c ∨ ch ∈ s.data := by
  intro ch hch
  rcases List.mem_append.mp hch with hch | hch
  · exact Or.inl (List.eq_of_mem_replicate hch)
  · exact Or.inr hch

lemma otp_string_shape (X digits : Nat) (hd : 1 ≤ digits) :
    (padStart (Nat.repr (X % 10 ^ digits)) digits '0').length = digits ∧
    ∀ ch ∈ (padStart (Nat.repr (X % 10 ^ digits)) digits '0').data, ch.isDigit = true := by
  constructor
  · rw [padStart_length]
    have hle : (Nat.repr (X % 10 ^ digits)).length ≤ digits :=
      Nat.repr_length _ _ hd (Nat.mod_lt _ (by positivity))
    omega
  · intro ch hch
    rcases padStart_chars _ _ _ ch hch with rfl | hch
    · decide
    · exact repr_chars_digits _ ch hch

/-- C3: for a supported algorithm and `digits ≥ 1`, `generateHOTP` returns a
string of length exactly `digits` made only of decimal digit characters,
equal to the truncated code mod `10^digits` left-padded with zeros. -/
theorem generateHOTP_digit_invariant (secret : List Nat) (counter : Int) (digits : Nat)
    (algorithm : String)
    (halg : algorithm = "SHA-1" ∨ algorithm = "SHA-256" ∨ algorithm = "SHA-512")
    (hd : 1 ≤ digits) :
    ∃ alg r, algoMap algorithm = some alg ∧
      generateHOTP secret counter digits algorithm = Except.ok r ∧
      r = padStart (Nat.repr (hotpCode (hmac alg secret (counterBytes counter)) % 10 ^ digits))
            digits '0' ∧
      r.length = digits ∧ ∀ ch ∈ r.data, ch.isDigit = true := by
  rcases halg with rfl | rfl | rfl <;>
    exact ⟨_, _, rfl, rfl, rfl, (otp_string_shape _ _ hd).1, (otp_string_shape _ _ hd).2⟩

theorem generateHOTP_digit_invariant_witness :
    ∃ alg r, algoMap "SHA-1" = some alg ∧
      generateHOTP [] 0 6 "SHA-1" = Except.ok r ∧
      r = padStart (Nat.repr (hotpCode (hmac alg [] (counterBytes 0)) % 10 ^ 6)) 6 '0' ∧
      r.length = 6 ∧ ∀ ch ∈ r.data, ch.isDigit = true :=
  generateHOTP_digit_invariant [] 0 6 "SHA-1" (Or.inl rfl) (by norm_num)

/-! ### C4: tokens inside the verification window are accepted -/

lemma verifyLoop_ok_true (secret T : String) (t step : Int) (digits : Nat)
    (algorithm : String)
    (gen_ok : ∀ x : Int, ∃ T2, generateTOTP secret x step digits algorithm = Except.ok T2) :
    ∀ (offs : List Int) (i : Int), i ∈ offs →
      generateTOTP secret (t + i * step) step digits algorithm = Except.ok T →
      verifyLoop secret T t step digits algorithm offs = Except.ok true := by
  intro offs
  induction offs with
  | nil => intro i hi; simp at hi
  | cons j rest ih =>
    intro i hi hT
    obtain ⟨Tj, hTj⟩ := gen_ok (t + j * step)
    by_cases hcmp : constantTimeCompare T Tj = true
    · simp [verifyLoop, hTj, hcmp]
    · have hne : i ≠ j := by
        rintro rfl
        rw [hT] at hTj
        cases hTj
        exact hcmp ((ctc_eq_iff T T).mpr rfl)
      rcases List.mem_cons.mp hi with rfl | hmem
      · exact absurd rfl hne
      · simp only [verifyLoop, hTj, hcmp, if_false, Bool.false_eq_true]
        exact ih i hmem hT

/-- C4: a token generated at `t - k*step` for any offset `|k| ≤ window` is
accepted by `verifyTOTP` at timestamp `t`; in particular `window = 0` accepts
the token generated at `t` itself. -/
theorem verifyTOTP_window_accepts (secret : String) (t step : Int) (w digits : Nat)
    (algorithm : String) (k : Int) (T : String)
    (hstep : 0 < step) (ht : 0 ≤ t) (hk : k.natAbs ≤ w)
    (hT : generateTOTP secret (t - k * step) step digits algorithm = Except.ok T) :
    verifyTOTP secret T t w step digits algorithm = Except.ok true := by
  have hdec : ∃ buf, base32Decode secret = Except.ok buf := by
    unfold generateTOTP at hT
    cases hb : base32Decode secret with
    | error e => rw [hb] at hT; cases hT
    | ok buf => exact ⟨buf, rfl⟩
  obtain ⟨buf, hbuf⟩ := hdec
  have halg : ∃ alg, algoMap algorithm = some alg := by
    unfold generateTOTP at hT
    rw [hbuf] at hT
    unfold generateHOTP at hT
    cases ha : algoMap algorithm with
    | none => rw [ha] at hT; cases hT
    | some alg => exact ⟨alg, rfl⟩
  obtain ⟨alg, halg⟩ := halg
  have gen_ok : ∀ x : Int, ∃ T2,
      generateTOTP secret x step digits algorithm = Except.ok T2 := by
    intro x
    unfold generateTOTP generateHOTP
    rw [hbuf, halg]
    exact ⟨_, rfl⟩
  have hmem : (-k) ∈ windowOffsets w := by
    have h1 : ((w : Int) - k).toNat ∈ List.range (2 * w + 1) := List.mem_range.mpr (by omega)
    have h2 := List.mem_map_of_mem (fun j : Nat => (j : Int) - (w : Int)) h1
    have h3 : ((((w : Int) - k).toNat : Int) - (w : Int)) = -k := by omega
    rw [windowOffsets, ← h3]
    exact h2
  unfold verifyTOTP
  apply verifyLoop_ok_true secret T t step digits algorithm gen_ok (windowOffsets w) (-k) hmem
  rw [show t + (-k) * step = t - k * step by ring]
  exact hT

theorem verifyTOTP_window_accepts_witness :
    (0 : Int) < 30 ∧ (0 : Int) ≤ 59 ∧ (1 : Int).natAbs ≤ 1 ∧
    generateTOTP "GEZDGNBVGY3TQOJQGEZDGNBVGY3TQOJQ" (59 - 1 * 30) 30 6 "SHA-1" =
      Except.ok "755224" ∧
    verifyTOTP "GEZDGNBVGY3TQOJQGEZDGNBVGY3TQOJQ" "755224" 59 1 30 6 "SHA-1" =
      Except.ok true :=
  ⟨by norm_num, by norm_num, by norm_num, by decide,
    verifyTOTP_window_accepts "GEZDGNBVGY3TQOJQGEZDGNBVGY3TQOJQ" 59 30 1 6 "SHA-1" 1 "755224"
      (by norm_num) (by norm_num) (by norm_num) (by decide)⟩

/-! ### C9: candidate-token normalization in verifyToken -/

lemma stripToken_idem (t : String) : stripToken (stripToken t) = stripToken t := by
  apply String.ext
  show (t.data.filter (fun c => !isStripChar c)).filter (fun c => !isStripChar c) =
    t.data.filter (fun c => !isStripChar c)
  rw [List.filter_filter]
  apply List.filter_congr
  intro c _
  cases isStripChar c <;> rfl

/-- C9 counterexample: the claim fails for the non-empty candidate `"-"`:
`verifyToken` on `"-"` returns `ok false`, while on its stripped form `""`
it throws the missing-token error, so the two results differ. -/
theorem verifyToken_strip_counterexample :
    verifyToken ⟨"GEZDGNBVGY3TQOJQGEZDGNBVGY3TQOJQ", "-", none, none, none, none, some 59⟩ 0 ≠
      verifyToken
        ⟨"GEZDGNBVGY3TQOJQGEZDGNBVGY3TQOJQ", stripToken "-", none, none, none, none, some 59⟩
        0 := by
  decide

/-- C9 (amended): for a non-empty secret and a candidate token whose stripped
form is still non-empty, `verifyToken` on the candidate agrees with
`verifyToken` on the stripped candidate; the regenerated expected token is
never normalized. -/
theorem verifyToken_strip_invariant (o : VerifyOptions) (now : Int)
    (hsec : o.secret ≠ "") (htok : stripToken o.token ≠ "") :
    verifyToken o now =
      verifyToken
        ⟨o.secret, stripToken o.token, o.window, o.step, o.digits, o.algorithm, o.timestamp⟩
        now := by
  have htok0 : o.token ≠ "" := by
    intro h
    apply htok
    rw [h]
    rfl
  unfold verifyToken
  rw [if_neg (by simp [hsec, htok0]), if_neg (by simp [hsec, htok])]
  rw [stripToken_idem]

theorem verifyToken_strip_invariant_witness :
    verifyToken
        ⟨"GEZDGNBVGY3TQOJQGEZDGNBVGY3TQOJQ", "28-7082", none, none, none, none, some 59⟩ 0 =
      verifyToken
        ⟨"GEZDGNBVGY3TQOJQGEZDGNBVGY3TQOJQ", stripToken "28-7082", none, none, none, none,
          some 59⟩ 0 :=
  verifyToken_strip_invariant
    ⟨"GEZDGNBVGY3TQOJQGEZDGNBVGY3TQOJQ", "28-7082", none, none, none, none, some 59⟩ 0
    (by decide) (by decide)

/-! ### C10: zero-valued option fields fall back to the defaults -/

/-- C10: in the options forms, `timestamp = 0`, `step = 0` and `digits = 0`
behave exactly like omitting the field (JavaScript `||` treats `0` as falsy),
for both `generateToken` and `verifyToken`, whereas `window` uses an
`!== undefined` test, so `window = 0` is kept and only an absent window
defaults to 1. -/
theorem options_zero_fields_defaulted :
    (∀ (s : String) (dg : Option Nat) (al : Option String) (ts : Option Int) (now : Int),
        generateToken ⟨s, some 0, dg, al, ts⟩ now = generateToken ⟨s, none, dg, al, ts⟩ now) ∧
    (∀ (s : String) (st : Option Int) (al : Option String) (ts : Option Int) (now : Int),
        generateToken ⟨s, st, some 0, al, ts⟩ now = generateToken ⟨s, st, none, al, ts⟩ now) ∧
    (∀ (s : String) (st : Option Int) (dg : Option Nat) (al : Option String) (now : Int),
        generateToken ⟨s, st, dg, al, some 0⟩ now = generateToken ⟨s, st, dg, al, none⟩ now) ∧
    (∀ (s tk : String) (wi : Option Nat) (dg : Option Nat) (al : Option String)
        (ts : Option Int) (now : Int),
        verifyToken ⟨s, tk, wi, some 0, dg, al, ts⟩ now =
          verifyToken ⟨s, tk, wi, none, dg, al, ts⟩ now) ∧
    (∀ (s tk : String) (wi : Option Nat) (st : Option Int) (al : Option String)
        (ts : Option Int) (now : Int),
        verifyToken ⟨s, tk, wi, st, some 0, al, ts⟩ now =
          verifyToken ⟨s, tk, wi, st, none, al, ts⟩ now) ∧
    (∀ (s tk : String) (wi : Option Nat) (st : Option Int) (dg : Option Nat)
        (al : Option String) (now : Int),
        verifyToken ⟨s, tk, wi, st, dg, al, some 0⟩ now =
          verifyToken ⟨s, tk, wi, st, dg, al, none⟩ now) ∧
    resolveWindow (some 0) = 0 ∧ resolveWindow none = 1 := by
  refine ⟨?_, ?_, ?_, ?_, ?_, ?_, rfl, rfl⟩ <;> intros <;> rfl

/-! ### C2: Base32 round-trip and length invariants -/

/-- The decoder's character loop specialized to already-looked-up 5-bit
values: `decodeCore` after a successful alphabet lookup of every character. -/
def decodeIdx : List Nat → Nat → Nat → List Nat
  | [], _, _ => []
  | ci :: rest, value, bits =>
    let v := ((value <<< 5) ||| ci) % 4294967296
    if 8 ≤ bits + 5 then ((v >>> (bits + 5 - 8)) &&& 255) :: decodeIdx rest v (bits + 5 - 8)
    else decodeIdx rest v (bits + 5)

lemma encodeEmit_8 (v : Nat) : encodeEmit v 8 = ([(v >>> 3) &&& 31], 3) := rfl

lemma encodeEmit_9 (v : Nat) : encodeEmit v 9 = ([(v >>> 4) &&& 31], 4) := rfl

lemma encodeEmit_10 (v : Nat) :
    encodeEmit v 10 = ([(v >>> 5) &&& 31, (v >>> 0) &&& 31], 0) := rfl

lemma encodeEmit_11 (v : Nat) :
    encodeEmit v 11 = ([(v >>> 6) &&& 31, (v >>> 1) &&& 31], 1) := rfl

lemma encodeEmit_12 (v : Nat) :
    encodeEmit v 12 = ([(v >>> 7) &&& 31, (v >>> 2) &&& 31], 2) := rfl

lemma encodeCore_groups_lt : ∀ (rest : List Nat) (v bits : Nat),
    ∀ g ∈ encodeCore rest v bits, g < 32 := by
  have hloop : ∀ (fuel v bits : Nat), ∀ g ∈ (encodeEmitLoop fuel v bits).1, g < 32 := by
    intro fuel
    induction fuel with
    | zero => intro v bits g hg; simp [encodeEmitLoop] at hg
    | succ fuel ih =>
      intro v bits g hg
      by_cases h5 : 5 ≤ bits
      · rw [encodeEmitLoop, if_pos h5] at hg
        rcases List.mem_cons.mp hg with rfl | hg
        · rw [and31_eq_mod]; omega
        · exact ih v (bits - 5) g hg
      · rw [encodeEmitLoop, if_neg h5] at hg
        simp at hg
  intro rest
  induction rest with
  | nil =>
    intro v bits g hg
    rw [encodeCore] at hg
    split at hg
    · rcases List.mem_singleton.mp hg with rfl
      rw [and31_eq_mod]; omega
    · simp at hg
  | cons b rest ih =>
    intro v bits g hg
    rw [encodeCore] at hg
    rcases List.mem_append.mp hg with hg | hg
    · exact hloop _ _ _ g hg
    · exact ih _ _ g hg

lemma b32_char_lookup : ∀ g : Nat, g < 32 →
    List.findIdx? (fun x => x == BASE32_CHARS.data.getD g 'A') BASE32_CHARS.data = some g := by
  decide

lemma decodeCore_on_encoded : ∀ (groups : List Nat), (∀ g ∈ groups, g < 32) →
    ∀ (v b : Nat),
      decodeCore (groups.map (fun g => BASE32_CHARS.data.getD g 'A')) v b =
        Except.ok (decodeIdx groups v b) := by
  intro groups
  induction groups with
  | nil => intro _ v b; rfl
  | cons g gs ih =>
    intro hg v b
    have hglt : g < 32 := hg g (List.mem_cons_self g gs)
    have htail : ∀ x ∈ gs, x < 32 := fun x hx => hg x (List.mem_cons_of_mem g hx)
    simp only [List.map_cons, decodeCore, b32_char_lookup g hglt, decodeIdx]
    by_cases h8 : 8 ≤ b + 5
    · rw [if_pos h8, if_pos h8, ih htail]
    · rw [if_neg h8, if_neg h8, ih htail]

lemma encode_decode_sim : ∀ (rest : List Nat) (ve vd be bd : Nat),
    (∀ x ∈ rest, x < 256) → ve < 4294967296 → vd < 4294967296 →
    ((be = 0 ∧ bd = 0) ∨ (0 < be ∧ be < 5 ∧ bd = 8 - be)) →
    decodeIdx (encodeCore rest ve be) vd bd =
      (if be = 0 then [] else [(vd % 2 ^ bd) * 2 ^ be + ve % 2 ^ be]) ++ rest := by
  intro rest
  induction rest with
  | nil =>
    intro ve vd be bd hb hve hvd hshape
    rcases hshape with ⟨rfl, rfl⟩ | ⟨h1, h2, rfl⟩
    · rfl
    · interval_cases be
      · -- be = 1, bd = 7
        have hc : ((ve <<< 4) % 4294967296) &&& 31 < 2 ^ 5 := by rw [and31_eq_mod]; omega
        rw [show encodeCore [] ve 1 = [((ve <<< 4) % 4294967296) &&& 31] from rfl]
        rw [show decodeIdx [((ve <<< 4) % 4294967296) &&& 31] vd (8 - 1) =
              [((((vd <<< 5) ||| (((ve <<< 4) % 4294967296) &&& 31)) % 4294967296) >>> 4) &&& 255]
            from rfl]
        rw [shl_or_small _ _ _ hc]
        simp only [Nat.shiftLeft_eq, Nat.shiftRight_eq_div_pow, and255_eq_mod, and31_eq_mod]
        norm_num
        omega
      · -- be = 2, bd = 6
        have hc : ((ve <<< 3) % 4294967296) &&& 31 < 2 ^ 5 := by rw [and31_eq_mod]; omega
        rw [show encodeCore [] ve 2 = [((ve <<< 3) % 4294967296) &&& 31] from rfl]
        rw [show decodeIdx [((ve <<< 3) % 4294967296) &&& 31] vd (8 - 2) =
              [((((vd <<< 5) ||| (((ve <<< 3) % 4294967296) &&& 31)) % 4294967296) >>> 3) &&& 255]
            from rfl]
        rw [shl_or_small _ _ _ hc]
        simp only [Nat.shiftLeft_eq, Nat.shiftRight_eq_div_pow, and255_eq_mod, and31_eq_mod]
        norm_num
        omega
      · -- be = 3, bd = 5
        have hc : ((ve <<< 2) % 4294967296) &&& 31 < 2 ^ 5 := by rw [and31_eq_mod]; omega
        rw [show encodeCore [] ve 3 = [((ve <<< 2) % 4294967296) &&& 31] from rfl]
        rw [show decodeIdx [((ve <<< 2) % 4294967296) &&& 31] vd (8 - 3) =
              [((((vd <<< 5) ||| (((ve <<< 2) % 4294967296) &&& 31)) % 4294967296) >>> 2) &&& 255]
            from rfl]
        rw [shl_or_small _ _ _ hc]
        simp only [Nat.shiftLeft_eq, Nat.shiftRight_eq_div_pow, and255_eq_mod, and31_eq_mod]
        norm_num
        omega
      · -- be = 4, bd = 4
        have hc : ((ve <<< 1) % 4294967296) &&& 31 < 2 ^ 5 := by rw [and31_eq_mod]; omega
        rw [show encodeCore [] ve 4 = [((ve <<< 1) % 4294967296) &&& 31] from rfl]
        rw [show decodeIdx [((ve <<< 1) % 4294967296) &&& 31] vd (8 - 4) =
              [((((vd <<< 5) ||| (((ve <<< 1) % 4294967296) &&& 31)) % 4294967296) >>> 1) &&& 255]
            from rfl]
        rw [shl_or_small _ _ _ hc]
        simp only [Nat.shiftLeft_eq, Nat.shiftRight_eq_div_pow, and255_eq_mod, and31_eq_mod]
        norm_num
        omega
  | cons b rest ih =>
    intro ve vd be bd hb hve hvd hshape
    have hB : b < 256 := hb b (List.mem_cons_self b rest)
    have htail : ∀ x ∈ rest, x < 256 := fun x hx => hb x (List.mem_cons_of_mem b hx)
    rcases hshape with ⟨rfl, rfl⟩ | ⟨h1, h2, rfl⟩
    · -- be = 0, bd = 0: one char emitted, no byte decoded yet
      simp only [encodeCore, Nat.zero_add, Nat.reduceAdd, encodeEmit_8, List.singleton_append]
      simp only [decodeIdx, Nat.reduceAdd, Nat.reduceLeDiff, reduceIte]
      rw [ih _ _ 3 5 htail (Nat.mod_lt _ (by norm_num : 0 < 4294967296))
          (Nat.mod_lt _ (by norm_num : 0 < 4294967296)) (Or.inr (by norm_num))]
      norm_num
      have hc1 : ((((ve <<< 8) ||| b) % 4294967296) >>> 3) &&& 31 < 2 ^ 5 := by
        rw [and31_eq_mod]; omega
      rw [shl_or_small _ _ _ hc1, shl_or_small _ _ _ (show b < 2 ^ 8 from hB)]
      simp only [Nat.shiftLeft_eq, Nat.shiftRight_eq_div_pow, and31_eq_mod, and255_eq_mod]
      norm_num
      omega
    · interval_cases be
      · -- be = 1, bd = 7
        simp only [encodeCore, Nat.reduceAdd, encodeEmit_9, List.cons_append,
          List.singleton_append, List.nil_append]
        simp only [decodeIdx, Nat.reduceAdd, Nat.reduceSub, Nat.reduceLeDiff, reduceIte]
        rw [ih _ _ 4 4 htail (Nat.mod_lt _ (by norm_num : 0 < 4294967296))
          (Nat.mod_lt _ (by norm_num : 0 < 4294967296)) (Or.inr (by norm_num))]
        norm_num
        have hc1 : ((((ve <<< 8) ||| b) % 4294967296) >>> 4) &&& 31 < 2 ^ 5 := by
          rw [and31_eq_mod]; omega
        rw [shl_or_small _ _ _ hc1, shl_or_small _ _ _ (show b < 2 ^ 8 from hB)]
        simp only [Nat.shiftLeft_eq, Nat.shiftRight_eq_div_pow, and31_eq_mod, and255_eq_mod]
        norm_num
        omega
      · -- be = 2, bd = 6
        simp only [encodeCore, Nat.reduceAdd, encodeEmit_10, List.cons_append,
          List.singleton_append, List.nil_append]
        simp only [decodeIdx, Nat.reduceAdd, Nat.reduceSub, Nat.reduceLeDiff, reduceIte]
        rw [ih _ _ 0 0 htail (Nat.mod_lt _ (by norm_num : 0 < 4294967296))
          (Nat.mod_lt _ (by norm_num : 0 < 4294967296)) (Or.inl (by norm_num))]
        norm_num
        have hc1 : ((((ve <<< 8) ||| b) % 4294967296) >>> 5) &&& 31 < 2 ^ 5 := by
          rw [and31_eq_mod]; omega
        have hc2 : (((ve <<< 8) ||| b) % 4294967296) &&& 31 < 2 ^ 5 := by
          rw [and31_eq_mod]; omega
        rw [shl_or_small _ _ _ hc2, shl_or_small _ _ _ hc1, shl_or_small _ _ _ (show b < 2 ^ 8 from hB)]
        simp only [Nat.shiftLeft_eq, Nat.shiftRight_eq_div_pow, and31_eq_mod, and255_eq_mod]
        norm_num
        omega
      · -- be = 3, bd = 5
        simp only [encodeCore, Nat.reduceAdd, encodeEmit_11, List.cons_append,
          List.singleton_append, List.nil_append]
        simp only [decodeIdx, Nat.reduceAdd, Nat.reduceSub, Nat.reduceLeDiff, reduceIte]
        rw [ih _ _ 1 7 htail (Nat.mod_lt _ (by norm_num : 0 < 4294967296))
          (Nat.mod_lt _ (by norm_num : 0 < 4294967296)) (Or.inr (by norm_num))]
        norm_num
        have hc1 : ((((ve <<< 8) ||| b) % 4294967296) >>> 6) &&& 31 < 2 ^ 5 := by
          rw [and31_eq_mod]; omega
        have hc2 : ((((ve <<< 8) ||| b) % 4294967296) >>> 1) &&& 31 < 2 ^ 5 := by
          rw [and31_eq_mod]; omega
        rw [shl_or_small _ _ _ hc2, shl_or_small _ _ _ hc1, shl_or_small _ _ _ (show b < 2 ^ 8 from hB)]
        simp only [Nat.shiftLeft_eq, Nat.shiftRight_eq_div_pow, and31_eq_mod, and255_eq_mod]
        norm_num
        omega
      · -- be = 4, bd = 4
        simp only [encodeCore, Nat.reduceAdd, encodeEmit_12, List.cons_append,
          List.singleton_append, List.nil_append]
        simp only [decodeIdx, Nat.reduceAdd, Nat.reduceSub, Nat.reduceLeDiff, reduceIte]
        rw [ih _ _ 2 6 htail (Nat.mod_lt _ (by norm_num : 0 < 4294967296))
          (Nat.mod_lt _ (by norm_num : 0 < 4294967296)) (Or.inr (by norm_num))]
        norm_num
        have hc1 : ((((ve <<< 8) ||| b) % 4294967296) >>> 7) &&& 31 < 2 ^ 5 := by
          rw [and31_eq_mod]; omega
        have hc2 : ((((ve <<< 8) ||| b) % 4294967296) >>> 2) &&& 31 < 2 ^ 5 := by
          rw [and31_eq_mod]; omega
        rw [shl_or_small _ _ _ hc2, shl_or_small _ _ _ hc1, shl_or_small _ _ _ (show b < 2 ^ 8 from hB)]
        simp only [Nat.shiftLeft_eq, Nat.shiftRight_eq_div_pow, and31_eq_mod, and255_eq_mod]
        norm_num
        omega

lemma b32_char_clean : ∀ g : Nat, g < 32 →
    isJsWhitespace (BASE32_CHARS.data.getD g 'A') = false ∧
    Char.toUpper (BASE32_CHARS.data.getD g 'A') = BASE32_CHARS.data.getD g 'A' := by
  decide

/-- C2 (round-trip): decoding an encoded byte sequence restores it exactly. -/
lemma base32_roundtrip (b : List Nat) (hb : ∀ x ∈ b, x < 256) :
    base32Decode (base32Encode b) = Except.ok b := by
  have hg := encodeCore_groups_lt b 0 0
  show decodeCore
      ((((encodeCore b 0 0).map (fun g => BASE32_CHARS.data.getD g 'A')).filter
          (fun c => !isJsWhitespace c)).map Char.toUpper) 0 0 = Except.ok b
  have hfilter : ((encodeCore b 0 0).map (fun g => BASE32_CHARS.data.getD g 'A')).filter
      (fun c => !isJsWhitespace c) =
      (encodeCore b 0 0).map (fun g => BASE32_CHARS.data.getD g 'A') := by
    apply List.filter_eq_self.mpr
    intro c hc
    obtain ⟨g, hgmem, rfl⟩ := List.mem_map.mp hc
    rw [(b32_char_clean g (hg g hgmem)).1]
    rfl
  rw [hfilter, List.map_map]
  have hupper : (encodeCore b 0 0).map (Char.toUpper ∘ fun g => BASE32_CHARS.data.getD g 'A') =
      (encodeCore b 0 0).map (fun g => BASE32_CHARS.data.getD g 'A') :=
    List.map_congr_left (fun g hmem => (b32_char_clean g (hg g hmem)).2)
  rw [hupper, decodeCore_on_encoded _ hg 0 0,
      encode_decode_sim b 0 0 0 0 hb (by norm_num) (by norm_num) (Or.inl ⟨rfl, rfl⟩)]
  rfl

lemma encodeEmitLoop_spec : ∀ (fuel v bits : Nat), bits ≤ fuel →
    (encodeEmitLoop fuel v bits).1.length = bits / 5 ∧
    (encodeEmitLoop fuel v bits).2 = bits % 5 := by
  intro fuel
  induction fuel with
  | zero => intro v bits hle; interval_cases bits; simp [encodeEmitLoop]
  | succ fuel ih =>
    intro v bits hle
    by_cases h5 : 5 ≤ bits
    · have hrec := ih v (bits - 5) (by omega)
      rw [encodeEmitLoop, if_pos h5]
      refine ⟨?_, ?_⟩
      · simp only [List.length_cons, hrec.1]
        omega
      · simp only [hrec.2]
        omega
    · rw [encodeEmitLoop, if_neg h5]
      refine ⟨?_, ?_⟩ <;> simp <;> omega

lemma encodeCore_length : ∀ (rest : List Nat) (v bits : Nat), bits < 5 →
    (encodeCore rest v bits).length = (8 * rest.length + bits + 4) / 5 := by
  intro rest
  induction rest with
  | nil =>
    intro v bits hlt
    rw [encodeCore]
    split <;> simp <;> omega
  | cons b rest ih =>
    intro v bits hlt
    have hemit := encodeEmitLoop_spec (bits + 8) (((v <<< 8) ||| b) % 4294967296) (bits + 8)
      (Nat.le_refl _)
    simp only [encodeCore]
    rw [show encodeEmit (((v <<< 8) ||| b) % 4294967296) (bits + 8) =
        encodeEmitLoop (bits + 8) (((v <<< 8) ||| b) % 4294967296) (bits + 8) from rfl]
    rw [List.length_append, hemit.1, hemit.2, ih _ _ (by omega)]
    simp only [List.length_cons]
    omega

lemma decodeCore_length : ∀ (cs : List Char) (v bits : Nat) (bs : List Nat), bits < 8 →
    decodeCore cs v bits = Except.ok bs → bs.length = (5 * cs.length + bits) / 8 := by
  intro cs
  induction cs with
  | nil =>
    intro v bits bs hlt h
    cases h
    simp
    omega
  | cons c rest ih =>
    intro v bits bs hlt h
    rw [decodeCore] at h
    cases hfind : List.findIdx? (fun x => x == c) BASE32_CHARS.data with
    | none => rw [hfind] at h; cases h
    | some ci =>
      rw [hfind] at h
      dsimp only at h
      by_cases h8 : 8 ≤ bits + 5
      · rw [if_pos h8] at h
        cases hrec : decodeCore rest (((v <<< 5) ||| ci) % 4294967296) (bits + 5 - 8) with
        | error e => rw [hrec] at h; cases h
        | ok bs2 =>
          rw [hrec] at h
          cases h
          have := ih _ _ _ (by omega) hrec
          simp only [List.length_cons, this]
          omega
      · rw [if_neg h8] at h
        have := ih _ _ _ (by omega) h
        rw [this]
        simp only [List.length_cons]
        omega

/-- C2: the Base32 codec invariants — decode inverts encode byte-for-byte,
the encoded text has length `ceil(len(b)*8/5)`, and a successful decode of a
(whitespace-stripped) text of length n yields `floor(n*5/8)` bytes. -/
theorem base32_codec_invariants :
    (∀ b : List Nat, (∀ x ∈ b, x < 256) → base32Decode (base32Encode b) = Except.ok b) ∧
    (∀ b : List Nat, (base32Encode b).length = (8 * b.length + 4) / 5) ∧
    (∀ (s : String) (bs : List Nat), base32Decode s = Except.ok bs →
      bs.length = 5 * strippedLength s / 8) := by
  refine ⟨base32_roundtrip, ?_, ?_⟩
  · intro b
    show ((encodeCore b 0 0).map (fun g => BASE32_CHARS.data.getD g 'A')).length = _
    rw [List.length_map, encodeCore_length b 0 0 (by norm_num)]
  · intro s bs h
    have hlen := decodeCore_length _ 0 0 bs (by norm_num) h
    rw [hlen, List.length_map, strippedLength]
    omega

theorem base32_codec_invariants_witness :
    base32Decode (base32Encode [0x31, 0x32, 0x33]) = Except.ok [0x31, 0x32, 0x33] ∧
    (base32Encode [0x31, 0x32, 0x33]).length = (8 * 3 + 4) / 5 ∧
    ([0x31, 0x32] : List Nat).length = 5 * strippedLength "GEZA" / 8 :=
  ⟨base32_codec_invariants.1 [0x31, 0x32, 0x33] (by decide),
   base32_codec_invariants.2.1 [0x31, 0x32, 0x33],
   base32_codec_invariants.2.2 "GEZA" [0x31, 0x32] (by decide)⟩


end TotpAuth
